import Mathlib

/-!
Verification development for the schema-migration engine of the repository
(`internal/app/migrations/migrations.go` and `internal/app/migrations/runner.go`).

The engine is shallowly embedded: the database is an explicit state value, a
transaction is the pending state threaded through a migration's body and
discarded on rollback, and every Go function that talks to the database
becomes a Lean function on that state.  MySQL failure modes that the code
relies on (unknown column, missing table, duplicate primary key, the
`database/sql` scan conversion rules) are modelled explicitly where the code
branches on them.
-/

set_option maxHeartbeats 1000000

namespace MigrationEngine

/-- The column layouts the `schema_migrations` table can be in.  `canonical`
is `(version, name, applied_at)`; `legacyFull` is `(id, name, applied_at)`;
`legacyMinimal` is `(id, applied_at)`; `other` is any layout with none of the
recognised key columns. -/
inductive LedgerShape : Type
  | canonical
  | legacyFull
  | legacyMinimal
  | other
  deriving DecidableEq

/-- One row of the `schema_migrations` table.  `key` is the value stored in
the primary-key column (named `version` or `id` depending on the shape);
`appliedAt` models the `applied_at` timestamp. -/
structure LedgerRow : Type where
  key : String
  name : String
  appliedAt : Nat
  deriving DecidableEq

/-- The `schema_migrations` table: its column layout plus its rows. -/
structure LedgerTable : Type where
  shape : LedgerShape
  rows : List LedgerRow
  deriving DecidableEq

/-- The database state visible to the migration engine: the ledger table
(`none` when absent), the `schema_migrations_old` table used by the repair
migration's rename step, whether the `users` and `contacts` tables exist, and
a clock supplying `NOW()` timestamps. -/
structure DB : Type where
  ledger : Option LedgerTable
  ledgerOld : Option LedgerTable
  users : Bool
  contacts : Bool
  clock : Nat
  deriving DecidableEq

/-- A completely fresh database: no tables at all. -/
def freshDB : DB := ⟨none, none, false, false, 0⟩

/-- Does this shape have a `version` column? -/
def LedgerShape.hasVersion : LedgerShape → Bool
  | .canonical => true
  | _ => false

/-- Does this shape have an `id` column? -/
def LedgerShape.hasId : LedgerShape → Bool
  | .legacyFull => true
  | .legacyMinimal => true
  | _ => false

/-- Does this shape have a `name` column? -/
def LedgerShape.hasName : LedgerShape → Bool
  | .canonical => true
  | .legacyFull => true
  | _ => false

/-- `SELECT COUNT(*) ... WHERE <key column> = v` over the rows. -/
def countKey : List LedgerRow → String → Nat
  | [], _ => 0
  | r :: rs, v => (if r.key = v then 1 else 0) + countKey rs v

/-- `CreateMigrationsTable` (migrations.go:187): `CREATE TABLE IF NOT EXISTS
schema_migrations (version ..., name ..., applied_at ...)`.  A no-op when the
table already exists, in whatever shape it has. -/
def CreateMigrationsTable (db : DB) : Except String DB :=
  match db.ledger with
  | some _ => .ok db
  | none => .ok { db with ledger := some ⟨.canonical, []⟩ }

/-- `db.QueryRow("SELECT COUNT(*) FROM schema_migrations WHERE version = ?",
id).Scan(&count)`: fails when the table is missing or has no `version`
column. -/
def queryCountVersion (db : DB) (v : String) : Except String Nat :=
  match db.ledger with
  | none => .error "Error 1146: table schema_migrations does not exist"
  | some t =>
    if t.shape.hasVersion then .ok (countKey t.rows v)
    else .error "Error 1054: unknown column version"

/-- `db.QueryRow("SELECT COUNT(*) FROM schema_migrations WHERE id = ?",
id).Scan(&count)`: fails when the table is missing or has no `id` column. -/
def queryCountId (db : DB) (v : String) : Except String Nat :=
  match db.ledger with
  | none => .error "Error 1146: table schema_migrations does not exist"
  | some t =>
    if t.shape.hasId then .ok (countKey t.rows v)
    else .error "Error 1054: unknown column id"

/-- `IsMigrationApplied` (migrations.go:199): try the canonical
`WHERE version = ?` query; on any error retry with the legacy
`WHERE id = ?` query; if that also fails return its error, otherwise report
whether the successful query counted at least one row. -/
def IsMigrationApplied (db : DB) (migrationID : String) : Except String Bool :=
  match queryCountVersion db migrationID with
  | .ok count => .ok (count > 0)
  | .error _ =>
    match queryCountId db migrationID with
    | .ok count => .ok (count > 0)
    | .error e => .error e

/-- `INSERT INTO schema_migrations (version, name, applied_at) VALUES (?, ?,
NOW())`: needs the `version` and `name` columns; duplicate primary key is an
error; `NOW()` is the clock, which advances. -/
def insertCanonical (db : DB) (v : String) : Except String DB :=
  match db.ledger with
  | none => .error "Error 1146: table schema_migrations does not exist"
  | some t =>
    if t.shape.hasVersion && t.shape.hasName then
      if countKey t.rows v > 0 then .error "Error 1062: duplicate entry"
      else .ok { db with
        ledger := some ⟨t.shape, t.rows ++ [⟨v, v, db.clock⟩]⟩,
        clock := db.clock + 1 }
    else .error "Error 1054: unknown column"

/-- `INSERT INTO schema_migrations (id, name, applied_at) VALUES (?, ?,
NOW())`: needs the `id` and `name` columns. -/
def insertLegacy (db : DB) (v : String) : Except String DB :=
  match db.ledger with
  | none => .error "Error 1146: table schema_migrations does not exist"
  | some t =>
    if t.shape.hasId && t.shape.hasName then
      if countKey t.rows v > 0 then .error "Error 1062: duplicate entry"
      else .ok { db with
        ledger := some ⟨t.shape, t.rows ++ [⟨v, v, db.clock⟩]⟩,
        clock := db.clock + 1 }
    else .error "Error 1054: unknown column"

/-- `MarkMigrationApplied` (migrations.go:214): insert using the canonical
columns; on any error retry with the legacy columns and return that second
attempt's outcome. -/
def MarkMigrationApplied (db : DB) (migrationID : String) : Except String DB :=
  match insertCanonical db migrationID with
  | .ok db' => .ok db'
  | .error _ => insertLegacy db migrationID

/-- `DELETE FROM schema_migrations WHERE version = ?`: needs the `version`
column; deleting zero rows is still a success. -/
def deleteByVersion (db : DB) (v : String) : Except String DB :=
  match db.ledger with
  | none => .error "Error 1146: table schema_migrations does not exist"
  | some t =>
    if t.shape.hasVersion then
      .ok { db with ledger := some ⟨t.shape, t.rows.filter (fun r => !(r.key = v))⟩ }
    else .error "Error 1054: unknown column version"

/-- `DELETE FROM schema_migrations WHERE id = ?`: needs the `id` column. -/
def deleteById (db : DB) (v : String) : Except String DB :=
  match db.ledger with
  | none => .error "Error 1146: table schema_migrations does not exist"
  | some t =>
    if t.shape.hasId then
      .ok { db with ledger := some ⟨t.shape, t.rows.filter (fun r => !(r.key = v))⟩ }
    else .error "Error 1054: unknown column id"

/-- `MarkMigrationUnapplied` (migrations.go:225): delete by `version`; on any
error retry deleting by `id`. -/
def MarkMigrationUnapplied (db : DB) (migrationID : String) : Except String DB :=
  match deleteByVersion db migrationID with
  | .ok db' => .ok db'
  | .error _ => deleteById db migrationID

/-- `001_create_users_table` Up: `CREATE TABLE IF NOT EXISTS users (...)` —
always succeeds, afterwards the users table exists. -/
def up001 (db : DB) : Except String DB := .ok { db with users := true }

/-- `001_create_users_table` Down: `DROP TABLE IF EXISTS users`. -/
def down001 (db : DB) : Except String DB := .ok { db with users := false }

/-- `002_create_contacts_table` Up: `CREATE TABLE IF NOT EXISTS contacts
(... FOREIGN KEY (user_id) REFERENCES users(id) ...)`.  When the contacts
table already exists this is a no-op; otherwise MySQL rejects the foreign key
if the referenced `users` table is absent (error 1824). -/
def up002 (db : DB) : Except String DB :=
  if db.contacts then .ok db
  else if db.users then .ok { db with contacts := true }
  else .error "Error 1824: failed to open the referenced table users"

/-- `002_create_contacts_table` Down: `DROP TABLE IF EXISTS contacts`. -/
def down002 (db : DB) : Except String DB := .ok { db with contacts := false }

/-- Outcome of `tx.QueryRow("SHOW TABLES LIKE 'schema_migrations'").Scan(&tableExists)`
in migration 003 (migrations.go:87).  When the table is absent the query
yields no rows, so `Scan` returns `sql.ErrNoRows`, whose message is exactly
"sql: no rows in result set".  When the table exists the single result column
is the table *name* (a string), and `database/sql` cannot convert the string
"schema_migrations" into the Go `bool` destination, so `Scan` returns a
conversion error distinct from `ErrNoRows`. -/
inductive ScanOutcome : Type
  | noRows
  | convError
  deriving DecidableEq

/-- Which of the two `Scan` failures migration 003's existence probe gets on
a given database state. -/
def showTablesScan (db : DB) : ScanOutcome :=
  match db.ledger with
  | none => .noRows
  | some _ => .convError

/-- The rename/create/copy/drop body of migration 003 (migrations.go:136-176),
reached only when the `version`+`name` layout was not detected:
`ALTER TABLE schema_migrations RENAME TO schema_migrations_old` (fails if
that name is taken), create the canonical table, copy rows according to which
legacy columns exist, then drop the old table. -/
def up003Repair (db : DB) (t : LedgerTable) : Except String DB :=
  if db.ledgerOld.isSome then
    .error "Error 1050: table schema_migrations_old already exists"
  else
    let copied : List LedgerRow :=
      if t.shape.hasId && t.shape.hasName then
        t.rows.map (fun r => ⟨r.key, r.name, r.appliedAt⟩)
      else if t.shape.hasId then
        t.rows.map (fun r => ⟨r.key, r.key, r.appliedAt⟩)
      else []
    .ok { db with ledger := some ⟨.canonical, copied⟩, ledgerOld := none }

/-- `003_fix_schema_migrations_table` Up (migrations.go:84-177), translated
branch for branch.  The code tests
`err != nil && err.Error() != "sql: no rows in result set"` on the
`SHOW TABLES` scan: that condition holds exactly when the table EXISTS (the
scan-into-bool conversion error), in which case it runs
`CREATE TABLE IF NOT EXISTS` (a no-op, the table exists) and returns its nil
error.  When the table is absent the scan error is `ErrNoRows`, the condition
is false, and control falls through to `DESCRIBE schema_migrations`, which
fails because the table does not exist. -/
def up003 (db : DB) : Except String DB :=
  match showTablesScan db with
  | .convError =>
    -- "Table doesn't exist, just create it" branch: CREATE TABLE IF NOT
    -- EXISTS, then return its (nil) error.
    CreateMigrationsTable db
  | .noRows =>
    -- fall through: DESCRIBE schema_migrations, then the repair decision
    match db.ledger with
    | none => .error "Error 1146: table schema_migrations does not exist"
    | some t =>
      if t.shape.hasVersion && t.shape.hasName then .ok db
      else up003Repair db t

/-- `003_fix_schema_migrations_table` Down (migrations.go:178-181): "This
migration is not reversible as it's a fix" — returns nil touching nothing. -/
def down003 (db : DB) : Except String DB := .ok db

/-- `Migration` (migrations.go:8): an ID plus Up and Down bodies, each run
against the transaction state. -/
structure Migration : Type where
  ID : String
  Up : DB → Except String DB
  Down : DB → Except String DB

/-- The catalog IDs, as literals shared by the statements below. -/
def mid1 : String := "001_create_users_table"

/-- ID of the second catalog entry. -/
def mid2 : String := "002_create_contacts_table"

/-- ID of the third catalog entry. -/
def mid3 : String := "003_fix_schema_migrations_table"

/-- First catalog entry. -/
def mig001 : Migration := ⟨mid1, up001, down001⟩

/-- Second catalog entry. -/
def mig002 : Migration := ⟨mid2, up002, down002⟩

/-- Third catalog entry. -/
def mig003 : Migration := ⟨mid3, up003, down003⟩

/-- `GetMigrations` (migrations.go:15): the fixed, ordered catalog. -/
def GetMigrations : List Migration := [mig001, mig002, mig003]

namespace Runner

/-- The loop of `Runner.MigrateUp` (runner.go:30-67), generic in the list
still to process.  For each migration: check `IsMigrationApplied` against the
committed state (an error aborts the call); skip when applied; otherwise run
`Up` and `MarkMigrationApplied` on the transaction state, rolling back (the
committed state is returned unchanged) and aborting on any error, committing
(the transaction state becomes the committed state) on success.  Returns the
Go function's error value together with the committed database state. -/
def migrateUpFrom : List Migration → DB → Option String × DB
  | [], db => (none, db)
  | m :: rest, db =>
    match IsMigrationApplied db m.ID with
    | .error e =>
      (some ("failed to check migration status for " ++ m.ID ++ ": " ++ e), db)
    | .ok true => migrateUpFrom rest db
    | .ok false =>
      match m.Up db with
      | .error e => (some ("failed to run migration " ++ m.ID ++ ": " ++ e), db)
      | .ok tx1 =>
        match MarkMigrationApplied tx1 m.ID with
        | .error e =>
          (some ("failed to mark migration " ++ m.ID ++ " as applied: " ++ e), db)
        | .ok tx2 => migrateUpFrom rest tx2

/-- `Runner.MigrateUp` (runner.go:20): ensure the ledger table exists, then
run the catalog loop. -/
def MigrateUp (db : DB) : Option String × DB :=
  match CreateMigrationsTable db with
  | .error e => (some ("failed to create migrations table: " ++ e), db)
  | .ok db0 => migrateUpFrom GetMigrations db0

/-- The reverse scan of `Runner.MigrateDown` (runner.go:85-94), given the
catalog already reversed: the first entry found applied is the one to revert;
a ledger read error aborts; none applied yields `none`. -/
def findLastAppliedRev : List Migration → DB → Except String (Option Migration)
  | [], _ => .ok none
  | m :: rest, db =>
    match IsMigrationApplied db m.ID with
    | .error e =>
      .error ("failed to check migration status for " ++ m.ID ++ ": " ++ e)
    | .ok true => .ok (some m)
    | .ok false => findLastAppliedRev rest db

/-- `Runner.MigrateDown` (runner.go:74-128), generic in the catalog: an empty
catalog (and a catalog with nothing applied) is a successful no-op; otherwise
the highest-positioned applied migration's `Down` and
`MarkMigrationUnapplied` run in one transaction, rolled back together on any
error. -/
def MigrateDownWith (migs : List Migration) (db : DB) : Option String × DB :=
  if migs.isEmpty then (none, db)
  else
    match findLastAppliedRev migs.reverse db with
    | .error e => (some e, db)
    | .ok none => (none, db)
    | .ok (some m) =>
      match m.Down db with
      | .error e => (some ("failed to rollback migration " ++ m.ID ++ ": " ++ e), db)
      | .ok tx1 =>
        match MarkMigrationUnapplied tx1 m.ID with
        | .error e =>
          (some ("failed to mark migration " ++ m.ID ++ " as unapplied: " ++ e), db)
        | .ok tx2 => (none, tx2)

/-- `Runner.MigrateDown` on the program's catalog. -/
def MigrateDown (db : DB) : Option String × DB :=
  MigrateDownWith GetMigrations db

/-- The loop of `Runner.Status` (runner.go:136-148), generic in the list: an
`IsMigrationApplied` error aborts the whole call with that error wrapped;
otherwise the printed `Applied`/`Pending` lines are modelled as the returned
`(id, applied)` list. -/
def statusFrom : List Migration → DB → Except String (List (String × Bool))
  | [], _ => .ok []
  | m :: rest, db =>
    match IsMigrationApplied db m.ID with
    | .error e =>
      .error ("failed to check migration status for " ++ m.ID ++ ": " ++ e)
    | .ok b =>
      match statusFrom rest db with
      | .error e => .error e
      | .ok report => .ok ((m.ID, b) :: report)

/-- `Runner.Status` (runner.go:131) on the program's catalog. -/
def Status (db : DB) : Except String (List (String × Bool)) :=
  statusFrom GetMigrations db

/-- An instrumented trace of a `MigrateUp` call: the returned error, the
committed database state, the IDs whose `Up` body was invoked (in order), and
the IDs whose transaction committed (in order). -/
structure UpTrace : Type where
  err : Option String
  db : DB
  attempted : List String
  committed : List String
  deriving DecidableEq

/-- `migrateUpFrom`, instrumented with which migrations were attempted and
which committed.  Projecting away the two lists recovers `migrateUpFrom`. -/
def migrateUpFromT : List Migration → DB → UpTrace
  | [], db => ⟨none, db, [], []⟩
  | m :: rest, db =>
    match IsMigrationApplied db m.ID with
    | .error e =>
      ⟨some ("failed to check migration status for " ++ m.ID ++ ": " ++ e), db, [], []⟩
    | .ok true => migrateUpFromT rest db
    | .ok false =>
      match m.Up db with
      | .error e =>
        ⟨some ("failed to run migration " ++ m.ID ++ ": " ++ e), db, [m.ID], []⟩
      | .ok tx1 =>
        match MarkMigrationApplied tx1 m.ID with
        | .error e =>
          ⟨some ("failed to mark migration " ++ m.ID ++ " as applied: " ++ e), db,
            [m.ID], []⟩
        | .ok tx2 =>
          let t := migrateUpFromT rest tx2
          ⟨t.err, t.db, m.ID :: t.attempted, m.ID :: t.committed⟩

/-- `Runner.MigrateUp`, instrumented. -/
def MigrateUpT (db : DB) : UpTrace :=
  match CreateMigrationsTable db with
  | .error e => ⟨some ("failed to create migrations table: " ++ e), db, [], []⟩
  | .ok db0 => migrateUpFromT GetMigrations db0

/-- `Runner.MigrateDown`, instrumented with the ID of the migration whose
revert transaction committed (if any). -/
def MigrateDownT (db : DB) : Option String × DB × Option String :=
  if GetMigrations.isEmpty then (none, db, none)
  else
    match findLastAppliedRev GetMigrations.reverse db with
    | .error e => (some e, db, none)
    | .ok none => (none, db, none)
    | .ok (some m) =>
      match m.Down db with
      | .error e => (some ("failed to rollback migration " ++ m.ID ++ ": " ++ e), db, none)
      | .ok tx1 =>
        match MarkMigrationUnapplied tx1 m.ID with
        | .error e =>
          (some ("failed to mark migration " ++ m.ID ++ " as unapplied: " ++ e), db, none)
        | .ok tx2 => (none, tx2, some m.ID)

/-- `n` further `MigrateUp` calls in sequence, stopping at the first error. -/
def migrateUpIter : Nat → DB → Option String × DB
  | 0, db => (none, db)
  | n + 1, db =>
    match MigrateUp db with
    | (some e, db') => (some e, db')
    | (none, db') => migrateUpIter n db'

end Runner

/-- Does the ledger table hold an entry whose key column equals `v`? -/
def ledgerHasEntry (db : DB) (v : String) : Bool :=
  match db.ledger with
  | none => false
  | some t => countKey t.rows v > 0

/-- The database states reachable from a fresh database through the Runner's
operations, paired with the versions that have been successfully applied (an
`Up` and `MarkMigrationApplied` committed together) and not since reverted (no
later `Down` and `MarkMigrationUnapplied` committed for them).  `Status` is
read-only and does not change the state. -/
inductive Reach : DB → List String → Prop
  | fresh : Reach freshDB []
  | up {db : DB} {A : List String} :
      Reach db A → Reach (Runner.MigrateUp db).2 (A ++ (Runner.MigrateUpT db).committed)
  | down {db : DB} {A : List String} :
      Reach db A →
      Reach (Runner.MigrateDown db).2
        (match (Runner.MigrateDownT db).2.2 with
          | some v => A.filter (fun w => !(w = v))
          | none => A)

/-- The first `k` catalog IDs (capped at all three). -/
def idsTake : Nat → List String
  | 0 => []
  | 1 => [mid1]
  | 2 => [mid1, mid2]
  | _ => [mid1, mid2, mid3]

/-- The inductive invariant tying a reachable state to its applied-version
history: either nothing exists yet, or the ledger is canonical and its keys
are exactly the first `k` catalog IDs, with the `users` and `contacts` tables
present exactly when their migrations are among them. -/
def StrongInv (db : DB) (A : List String) : Prop :=
  db.ledgerOld = none ∧
  ((db.ledger = none ∧ db.users = false ∧ db.contacts = false ∧ A = []) ∨
   (∃ k rows, k ≤ 3 ∧ db.ledger = some ⟨.canonical, rows⟩ ∧
     rows.map (fun r => r.key) = A ∧ A = idsTake k ∧
     db.users = decide (1 ≤ k) ∧ db.contacts = decide (2 ≤ k)))

/-- A migration whose `Up`, when it succeeds, leaves the ledger table exactly
as it found it.  All three catalog migrations have this property. -/
def UpKeepsLedger (m : Migration) : Prop :=
  ∀ db db', m.Up db = .ok db' → db'.ledger = db.ledger

/-- A database whose canonical, empty ledger table already exists. -/
def db0Canon : DB := ⟨some ⟨.canonical, []⟩, none, false, false, 0⟩

/-- A database in which all three migrations are applied and recorded in a
canonical ledger. -/
def dbAll : DB :=
  ⟨some ⟨.canonical, [⟨mid1, mid1, 0⟩, ⟨mid2, mid2, 1⟩, ⟨mid3, mid3, 2⟩]⟩,
    none, true, true, 3⟩

/-- A database whose ledger table exists but has neither a `version` nor an
`id` column, so both shapes of every ledger query fail. -/
def dbOther : DB := ⟨some ⟨.other, []⟩, none, false, false, 0⟩

/-- The legacy ledger of the spec's repair scenario (b): columns
`(id, name, applied_at)` and two rows `("001_x","001_x",t1)`,
`("002_y","002_y",t2)`. -/
def dbLegacyFull : DB :=
  ⟨some ⟨.legacyFull, [⟨"001_x", "001_x", 1⟩, ⟨"002_y", "002_y", 2⟩]⟩,
    none, false, false, 5⟩

/-- A migration whose `Up` always fails, used to exercise the abort-and-roll-
back contract on a concrete run. -/
def migBoom : Migration := ⟨"004_boom", fun _ => .error "boom", fun db => .ok db⟩

/-- The committed state after `migrateUpFrom [mig001]` on `db0Canon`. -/
def dbAfter001 : DB := ⟨some ⟨.canonical, [⟨mid1, mid1, 0⟩]⟩, none, true, false, 1⟩

/-- The instrumented up-loop projects onto the plain one. -/
theorem migrateUpFromT_proj (migs : List Migration) (db : DB) :
    Runner.migrateUpFrom migs db =
      ((Runner.migrateUpFromT migs db).err, (Runner.migrateUpFromT migs db).db) := by
  induction migs generalizing db with
  | nil => rfl
  | cons m rest ih =>
    cases h1 : IsMigrationApplied db m.ID with
    | error e => simp [Runner.migrateUpFrom, Runner.migrateUpFromT, h1]
    | ok b =>
      cases b with
      | true => simpa [Runner.migrateUpFrom, Runner.migrateUpFromT, h1] using ih db
      | false =>
        cases h2 : m.Up db with
        | error e => simp [Runner.migrateUpFrom, Runner.migrateUpFromT, h1, h2]
        | ok tx1 =>
          cases h3 : MarkMigrationApplied tx1 m.ID with
          | error e => simp [Runner.migrateUpFrom, Runner.migrateUpFromT, h1, h2, h3]
          | ok tx2 =>
            simpa [Runner.migrateUpFrom, Runner.migrateUpFromT, h1, h2, h3] using ih tx2

/-- The instrumented `MigrateUp` projects onto the plain one. -/
theorem MigrateUpT_proj (db : DB) :
    Runner.MigrateUp db = ((Runner.MigrateUpT db).err, (Runner.MigrateUpT db).db) := by
  cases h : CreateMigrationsTable db with
  | error e => simp [Runner.MigrateUp, Runner.MigrateUpT, h]
  | ok db0 =>
    simpa [Runner.MigrateUp, Runner.MigrateUpT, h] using migrateUpFromT_proj GetMigrations db0

/-- The instrumented `MigrateDown` projects onto the plain one. -/
theorem MigrateDownT_proj (db : DB) :
    Runner.MigrateDown db = ((Runner.MigrateDownT db).1, (Runner.MigrateDownT db).2.1) := by
  have hne : GetMigrations.isEmpty = false := rfl
  cases h1 : Runner.findLastAppliedRev GetMigrations.reverse db with
  | error e =>
    simp [Runner.MigrateDown, Runner.MigrateDownWith, Runner.MigrateDownT, h1, hne]
  | ok o =>
    cases o with
    | none =>
      simp [Runner.MigrateDown, Runner.MigrateDownWith, Runner.MigrateDownT, h1, hne]
    | some m =>
      cases h2 : m.Down db with
      | error e =>
        simp [Runner.MigrateDown, Runner.MigrateDownWith, Runner.MigrateDownT, h1, h2, hne]
      | ok tx1 =>
        cases h3 : MarkMigrationUnapplied tx1 m.ID with
        | error e =>
          simp [Runner.MigrateDown, Runner.MigrateDownWith, Runner.MigrateDownT,
            h1, h2, h3, hne]
        | ok tx2 =>
          simp [Runner.MigrateDown, Runner.MigrateDownWith, Runner.MigrateDownT,
            h1, h2, h3, hne]

/-- Processing a catalog prefix that finished cleanly, then the rest, is the
same as processing the rest from the prefix's committed state. -/
theorem migrateUpFrom_append (pre rest : List Migration) (db s : DB)
    (h : Runner.migrateUpFrom pre db = (none, s)) :
    Runner.migrateUpFrom (pre ++ rest) db = Runner.migrateUpFrom rest s := by
  induction pre generalizing db with
  | nil =>
    simp only [Runner.migrateUpFrom, Prod.mk.injEq] at h
    rw [List.nil_append, h.2]
  | cons m ms ih =>
    rw [List.cons_append]
    cases h1 : IsMigrationApplied db m.ID with
    | error e => simp [Runner.migrateUpFrom, h1] at h
    | ok b =>
      cases b with
      | true =>
        have h' : Runner.migrateUpFrom ms db = (none, s) := by
          simpa [Runner.migrateUpFrom, h1] using h
        simpa [Runner.migrateUpFrom, h1] using ih db h'
      | false =>
        cases h2 : m.Up db with
        | error e => simp [Runner.migrateUpFrom, h1, h2] at h
        | ok tx1 =>
          cases h3 : MarkMigrationApplied tx1 m.ID with
          | error e => simp [Runner.migrateUpFrom, h1, h2, h3] at h
          | ok tx2 =>
            have h' : Runner.migrateUpFrom ms tx2 = (none, s) := by
              simpa [Runner.migrateUpFrom, h1, h2, h3] using h
            simpa [Runner.migrateUpFrom, h1, h2, h3] using ih tx2 h'

/-- C1: during `ApplyAll` (`Runner.MigrateUp`'s loop), an error from a
pending migration's `Up` or from `MarkMigrationApplied` rolls that
migration's transaction back (the committed state returned is exactly the
state `s` left by the earlier migrations, none of the failing transaction's
effects or its ledger row included), aborts the run with that error wrapped
with the migration's ID, and — since the conclusion holds for every list
`post` — never attempts the migrations after the failing one, while the
migrations committed earlier in the run (all of `pre`'s work, recorded in
`s`) are retained. -/
theorem migrateUp_aborts_on_failure (pre post : List Migration) (m : Migration)
    (db s : DB) (e : String)
    (hpre : Runner.migrateUpFrom pre db = (none, s))
    (hpending : IsMigrationApplied s m.ID = .ok false) :
    (m.Up s = .error e →
      Runner.migrateUpFrom (pre ++ m :: post) db =
        (some ("failed to run migration " ++ m.ID ++ ": " ++ e), s)) ∧
    (∀ tx1, m.Up s = .ok tx1 → MarkMigrationApplied tx1 m.ID = .error e →
      Runner.migrateUpFrom (pre ++ m :: post) db =
        (some ("failed to mark migration " ++ m.ID ++ " as applied: " ++ e), s)) := by
  constructor
  · intro hup
    rw [migrateUpFrom_append pre (m :: post) db s hpre]
    simp [Runner.migrateUpFrom, hpending, hup]
  · intro tx1 hup hmark
    rw [migrateUpFrom_append pre (m :: post) db s hpre]
    simp [Runner.migrateUpFrom, hpending, hup, hmark]

/-- Witness for C1: on a concrete run where `mig001` commits and a migration
whose `Up` fails follows, the whole call returns the wrapped error and the
state committed by `mig001`, with `mig002` never attempted. -/
theorem migrateUp_aborts_on_failure_witness :
    Runner.migrateUpFrom [mig001] db0Canon = (none, dbAfter001) ∧
    IsMigrationApplied dbAfter001 migBoom.ID = .ok false ∧
    migBoom.Up dbAfter001 = .error "boom" ∧
    Runner.migrateUpFrom ([mig001] ++ migBoom :: [mig002]) db0Canon =
      (some ("failed to run migration " ++ migBoom.ID ++ ": " ++ "boom"), dbAfter001) :=
  ⟨rfl, rfl, rfl,
    (migrateUp_aborts_on_failure [mig001] [mig002] migBoom db0Canon dbAfter001 "boom"
      rfl rfl).1 rfl⟩

/-- C2 (code bug): on the legacy-shaped ledger of the spec's scenario (b),
migration 003's `Up` returns success without repairing anything — the
existence probe's scan error sends it into the "table doesn't exist" branch,
whose `CREATE TABLE IF NOT EXISTS` is a no-op, and the rename/copy/drop
logic never runs.  The table keeps its legacy shape and rows. -/
theorem up003_leaves_legacy_table_untouched :
    up003 dbLegacyFull = .ok dbLegacyFull := rfl

/-- C3 (code bug): with the ledger table absent, migration 003's `Up` fails
instead of creating the canonical table — the `sql.ErrNoRows` outcome of the
existence probe skips the creation branch (the code's own comment says
"Table doesn't exist, just create it" about a branch that is only reached
when the table exists), and the subsequent `DESCRIBE` errors out. -/
theorem up003_fails_on_absent_table :
    up003 freshDB = .error "Error 1146: table schema_migrations does not exist" := rfl

/-- Counterexample to C4: `Status` on a database whose ledger table has
neither recognised key column fails outright with the first entry's wrapped
read error instead of recording the failure against that entry and
continuing. -/
theorem status_fails_on_unreadable_ledger :
    Runner.Status dbOther =
      .error ("failed to check migration status for " ++ mid1 ++
        ": Error 1054: unknown column id") := rfl

/-- C4 as amended: when `IsMigrationApplied` fails for a catalog entry while
every earlier entry was read successfully, `Status` aborts immediately,
returning that entry's wrapped error; the entries after it are never scanned
(the conclusion does not depend on `post`). -/
theorem status_aborts_on_first_read_error (pre post : List Migration)
    (m : Migration) (db : DB) (e : String)
    (hpre : ∀ m' ∈ pre, ∃ b, IsMigrationApplied db m'.ID = .ok b)
    (hm : IsMigrationApplied db m.ID = .error e) :
    Runner.statusFrom (pre ++ m :: post) db =
      .error ("failed to check migration status for " ++ m.ID ++ ": " ++ e) := by
  induction pre with
  | nil => simp [Runner.statusFrom, hm]
  | cons p ps ih =>
    obtain ⟨b, hb⟩ := hpre p (by simp)
    have hrest := ih (fun m' hm' => hpre m' (by simp [hm']))
    rw [List.cons_append]
    simp [Runner.statusFrom, hb, hrest]

/-- Witness for C4's amended statement at a concrete database. -/
theorem status_aborts_on_first_read_error_witness :
    Runner.statusFrom ([] ++ mig001 :: [mig002, mig003]) dbOther =
      .error ("failed to check migration status for " ++ mig001.ID ++
        ": Error 1054: unknown column id") :=
  status_aborts_on_first_read_error [] [mig002, mig003] mig001 dbOther
    "Error 1054: unknown column id" (by intro m' hm'; cases hm') rfl

/-- C7: `IsMigrationApplied` first attempts the canonical `WHERE version = ?`
query and answers from it when it succeeds; only when it fails does it
attempt the legacy `WHERE id = ?` query and answer from that; it returns an
error exactly when both attempts fail (and then the legacy attempt's error),
and a successful call reports whether the succeeding query counted at least
one row. -/
theorem isApplied_dual_query (db : DB) (v : String) :
    (∀ c, queryCountVersion db v = .ok c →
      IsMigrationApplied db v = .ok (decide (c > 0))) ∧
    (∀ e c, queryCountVersion db v = .error e → queryCountId db v = .ok c →
      IsMigrationApplied db v = .ok (decide (c > 0))) ∧
    (∀ e e', queryCountVersion db v = .error e → queryCountId db v = .error e' →
      IsMigrationApplied db v = .error e') ∧
    (∀ e, IsMigrationApplied db v = .error e →
      (∃ e1, queryCountVersion db v = .error e1) ∧ queryCountId db v = .error e) := by
  refine ⟨?_, ?_, ?_, ?_⟩
  · intro c h; simp [IsMigrationApplied, h]
  · intro e c h1 h2; simp [IsMigrationApplied, h1, h2]
  · intro e e' h1 h2; simp [IsMigrationApplied, h1, h2]
  · intro e h
    cases h1 : queryCountVersion db v with
    | ok c => simp [IsMigrationApplied, h1] at h
    | error e1 =>
      cases h2 : queryCountId db v with
      | ok c => simp [IsMigrationApplied, h1, h2] at h
      | error e2 =>
        simp [IsMigrationApplied, h1, h2] at h
        subst h
        exact ⟨⟨e1, rfl⟩, rfl⟩

/-- Witness for C7 on the legacy-shaped ledger: the canonical query fails,
the legacy query succeeds counting one row, and the call answers from it. -/
theorem isApplied_dual_query_witness :
    queryCountVersion dbLegacyFull "001_x" =
      .error "Error 1054: unknown column version" ∧
    queryCountId dbLegacyFull "001_x" = .ok 1 ∧
    IsMigrationApplied dbLegacyFull "001_x" = .ok (decide ((1 : Nat) > 0)) :=
  ⟨rfl, rfl,
    (isApplied_dual_query dbLegacyFull "001_x").2.1
      "Error 1054: unknown column version" 1 rfl rfl⟩

/-- C8: on a fresh database `MigrateUp` succeeds, attempting and committing
the migrations in exactly catalog order (001, then 002, then 003 — the trace
lists commits in order), and ends with the users and contacts tables present
and all three versions recorded in the ledger in that order; no migration
failed for a missing precondition. -/
theorem migrateUp_fresh_in_order :
    Runner.MigrateUp freshDB =
      (none, ⟨some ⟨.canonical, [⟨mid1, mid1, 0⟩, ⟨mid2, mid2, 1⟩, ⟨mid3, mid3, 2⟩]⟩,
        none, true, true, 3⟩) ∧
    (Runner.MigrateUpT freshDB).committed = [mid1, mid2, mid3] ∧
    (Runner.MigrateUpT freshDB).attempted = [mid1, mid2, mid3] ∧
    (Runner.MigrateUpT freshDB).err = none :=
  ⟨rfl, rfl, rfl, rfl⟩

/-- Counting a key distributes over row-list concatenation. -/
theorem countKey_append (rows1 rows2 : List LedgerRow) (v : String) :
    countKey (rows1 ++ rows2) v = countKey rows1 v + countKey rows2 v := by
  induction rows1 with
  | nil => simp [countKey]
  | cons r rs ih => simp [countKey, ih]; omega

/-- When the table exists with a recognisable key column, `IsMigrationApplied`
reports whether any row carries the version. -/
theorem isApplied_char (db : DB) (t : LedgerTable) (v : String)
    (hl : db.ledger = some t)
    (hs : t.shape.hasVersion = true ∨ t.shape.hasId = true) :
    IsMigrationApplied db v = .ok (decide (countKey t.rows v > 0)) := by
  cases hv : t.shape.hasVersion with
  | true => simp [IsMigrationApplied, queryCountVersion, hl, hv]
  | false =>
    have hid : t.shape.hasId = true := by
      rcases hs with h | h
      · rw [hv] at h; cases h
      · exact h
    simp [IsMigrationApplied, queryCountVersion, queryCountId, hl, hv, hid]

/-- A successful `IsMigrationApplied` call implies the table exists with a
recognisable key column and the answer counts its rows. -/
theorem isApplied_ok_inv (db : DB) (v : String) (b : Bool)
    (h : IsMigrationApplied db v = .ok b) :
    ∃ t, db.ledger = some t ∧
      (t.shape.hasVersion = true ∨ t.shape.hasId = true) ∧
      b = decide (countKey t.rows v > 0) := by
  cases hl : db.ledger with
  | none => simp [IsMigrationApplied, queryCountVersion, queryCountId, hl] at h
  | some t =>
    cases hv : t.shape.hasVersion with
    | true =>
      simp [IsMigrationApplied, queryCountVersion, hl, hv] at h
      exact ⟨t, rfl, .inl hv, h.symm⟩
    | false =>
      cases hid : t.shape.hasId with
      | true =>
        simp [IsMigrationApplied, queryCountVersion, queryCountId, hl, hv, hid] at h
        exact ⟨t, rfl, .inr hid, h.symm⟩
      | false =>
        simp [IsMigrationApplied, queryCountVersion, queryCountId, hl, hv, hid] at h

/-- `IsMigrationApplied` reads nothing but the ledger table. -/
theorem isApplied_congr (db db' : DB) (v : String) (h : db'.ledger = db.ledger) :
    IsMigrationApplied db' v = IsMigrationApplied db v := by
  simp [IsMigrationApplied, queryCountVersion, queryCountId, h]

/-- A successful `MarkMigrationApplied` happens exactly on a table with a
`name` column and a recognisable key column holding no row for the version
yet, and appends the one new row, advancing the clock. -/
theorem mark_ok_spec (db db' : DB) (v : String)
    (h : MarkMigrationApplied db v = .ok db') :
    ∃ t, db.ledger = some t ∧ t.shape.hasName = true ∧
      (t.shape.hasVersion = true ∨ t.shape.hasId = true) ∧
      countKey t.rows v = 0 ∧
      db' = { db with ledger := some ⟨t.shape, t.rows ++ [⟨v, v, db.clock⟩]⟩,
                      clock := db.clock + 1 } := by
  cases hl : db.ledger with
  | none => simp [MarkMigrationApplied, insertCanonical, insertLegacy, hl] at h
  | some t =>
    obtain ⟨shape, rows⟩ := t
    cases shape with
    | canonical =>
      by_cases hc : countKey rows v > 0
      · simp [MarkMigrationApplied, insertCanonical, insertLegacy, hl,
          LedgerShape.hasVersion, LedgerShape.hasName, LedgerShape.hasId, hc] at h
      · refine ⟨⟨.canonical, rows⟩, rfl, rfl, .inl rfl,
          by show countKey rows v = 0; omega, ?_⟩
        simp [MarkMigrationApplied, insertCanonical, hl,
          LedgerShape.hasVersion, LedgerShape.hasName, hc] at h
        exact h.symm
    | legacyFull =>
      by_cases hc : countKey rows v > 0
      · simp [MarkMigrationApplied, insertCanonical, insertLegacy, hl,
          LedgerShape.hasVersion, LedgerShape.hasName, LedgerShape.hasId, hc] at h
      · refine ⟨⟨.legacyFull, rows⟩, rfl, rfl, .inr rfl,
          by show countKey rows v = 0; omega, ?_⟩
        simp [MarkMigrationApplied, insertCanonical, insertLegacy, hl,
          LedgerShape.hasVersion, LedgerShape.hasName, LedgerShape.hasId, hc] at h
        exact h.symm
    | legacyMinimal =>
      simp [MarkMigrationApplied, insertCanonical, insertLegacy, hl,
        LedgerShape.hasVersion, LedgerShape.hasName, LedgerShape.hasId] at h
    | other =>
      simp [MarkMigrationApplied, insertCanonical, insertLegacy, hl,
        LedgerShape.hasVersion, LedgerShape.hasName, LedgerShape.hasId] at h

/-- After a successful `MarkMigrationApplied`, the version reads as applied. -/
theorem mark_sets_applied (db db' : DB) (v : String)
    (h : MarkMigrationApplied db v = .ok db') :
    IsMigrationApplied db' v = .ok true := by
  obtain ⟨t, hl, hname, hkeycol, hcnt, hdb'⟩ := mark_ok_spec db db' v h
  subst hdb'
  rw [isApplied_char _ ⟨t.shape, t.rows ++ [⟨v, v, db.clock⟩]⟩ v rfl hkeycol]
  simp [countKey_append, countKey]

/-- `MarkMigrationApplied` keeps every already-applied version applied. -/
theorem mark_preserves_applied (db db' : DB) (v w : String)
    (h : MarkMigrationApplied db v = .ok db')
    (hw : IsMigrationApplied db w = .ok true) :
    IsMigrationApplied db' w = .ok true := by
  obtain ⟨t, hl, _, hkeycol, _, hdb'⟩ := mark_ok_spec db db' v h
  obtain ⟨t2, hl2, _, hb⟩ := isApplied_ok_inv db w true hw
  rw [hl] at hl2
  cases hl2
  subst hdb'
  rw [isApplied_char _ ⟨t.shape, t.rows ++ [⟨v, v, db.clock⟩]⟩ w rfl hkeycol]
  have hpos : countKey t.rows w > 0 := of_decide_eq_true hb.symm
  simp [countKey_append]
  omega

/-- `mig001`'s `Up` never touches the ledger table. -/
theorem upKeeps_001 : UpKeepsLedger mig001 := by
  intro db db' h
  simp [mig001, up001] at h
  subst h
  rfl

/-- `mig002`'s `Up` never touches the ledger table. -/
theorem upKeeps_002 : UpKeepsLedger mig002 := by
  intro db db' h
  by_cases hc : db.contacts
  · simp [mig002, up002, hc] at h; subst h; rfl
  · by_cases hu : db.users
    · simp [mig002, up002, hc, hu] at h; subst h; rfl
    · simp [mig002, up002, hc, hu] at h

/-- `mig003`'s `Up`, when it succeeds, is the identity (the existence probe's
conversion error leads straight to a no-op `CREATE TABLE IF NOT EXISTS`). -/
theorem up003_ok_identity (db db' : DB) (h : up003 db = .ok db') : db' = db := by
  cases hl : db.ledger with
  | none => simp [up003, showTablesScan, hl] at h
  | some t =>
    simp [up003, showTablesScan, CreateMigrationsTable, hl] at h
    exact h.symm

/-- `mig003`'s `Up` never changes the ledger table when it succeeds. -/
theorem upKeeps_003 : UpKeepsLedger mig003 := by
  intro db db' h
  rw [up003_ok_identity db db' h]

/-- Each catalog migration's `Up` leaves the ledger table alone. -/
theorem upKeeps_catalog : ∀ m ∈ GetMigrations, UpKeepsLedger m := by
  intro m hm
  simp [GetMigrations] at hm
  rcases hm with rfl | rfl | rfl
  · exact upKeeps_001
  · exact upKeeps_002
  · exact upKeeps_003

/-- When every migration in the list already reads as applied, the loop skips
them all: no error, no state change, nothing attempted or committed. -/
theorem migrateUpFromT_skips (migs : List Migration) (db : DB)
    (h : ∀ m ∈ migs, IsMigrationApplied db m.ID = .ok true) :
    Runner.migrateUpFromT migs db = ⟨none, db, [], []⟩ := by
  induction migs with
  | nil => rfl
  | cons m ms ih =>
    have h1 : IsMigrationApplied db m.ID = .ok true := h m (by simp)
    have hrest := ih (fun m' hm' => h m' (by simp [hm']))
    simp [Runner.migrateUpFromT, h1, hrest]

/-- A clean run of the loop over migrations whose `Up` bodies keep the ledger
intact preserves every already-applied version and ends with every processed
migration applied. -/
theorem migrateUpFrom_applies_all (migs : List Migration)
    (hkeep : ∀ m ∈ migs, UpKeepsLedger m) (db db' : DB)
    (h : Runner.migrateUpFrom migs db = (none, db')) :
    (∀ w, IsMigrationApplied db w = .ok true → IsMigrationApplied db' w = .ok true) ∧
    (∀ m ∈ migs, IsMigrationApplied db' m.ID = .ok true) := by
  induction migs generalizing db with
  | nil =>
    simp only [Runner.migrateUpFrom, Prod.mk.injEq] at h
    rw [← h.2]
    exact ⟨fun w hw => hw, by simp⟩
  | cons m ms ih =>
    cases h1 : IsMigrationApplied db m.ID with
    | error e => simp [Runner.migrateUpFrom, h1] at h
    | ok b =>
      cases b with
      | true =>
        have h' : Runner.migrateUpFrom ms db = (none, db') := by
          simpa [Runner.migrateUpFrom, h1] using h
        obtain ⟨pres, hall⟩ := ih (fun m' hm' => hkeep m' (by simp [hm'])) db h'
        refine ⟨pres, ?_⟩
        intro m' hm'
        rcases List.mem_cons.mp hm' with rfl | hm''
        · exact pres m'.ID h1
        · exact hall m' hm''
      | false =>
        cases h2 : m.Up db with
        | error e => simp [Runner.migrateUpFrom, h1, h2] at h
        | ok tx1 =>
          cases h3 : MarkMigrationApplied tx1 m.ID with
          | error e => simp [Runner.migrateUpFrom, h1, h2, h3] at h
          | ok tx2 =>
            have h' : Runner.migrateUpFrom ms tx2 = (none, db') := by
              simpa [Runner.migrateUpFrom, h1, h2, h3] using h
            have hld : tx1.ledger = db.ledger := hkeep m (by simp) db tx1 h2
            have pres1 : ∀ w, IsMigrationApplied db w = .ok true →
                IsMigrationApplied tx2 w = .ok true := by
              intro w hw
              exact mark_preserves_applied tx1 tx2 m.ID w h3
                (by rw [isApplied_congr db tx1 w hld]; exact hw)
            obtain ⟨pres2, hall2⟩ := ih (fun m' hm' => hkeep m' (by simp [hm'])) tx2 h'
            refine ⟨fun w hw => pres2 w (pres1 w hw), ?_⟩
            intro m' hm'
            rcases List.mem_cons.mp hm' with rfl | hm''
            · exact pres2 m'.ID (mark_sets_applied tx1 tx2 m'.ID h3)
            · exact hall2 m' hm''

/-- A readable ledger means the table exists, so `CreateMigrationsTable` is a
no-op. -/
theorem applied_implies_table (db : DB) (v : String) (b : Bool)
    (h : IsMigrationApplied db v = .ok b) :
    CreateMigrationsTable db = .ok db := by
  obtain ⟨t, hl, _, _⟩ := isApplied_ok_inv db v b h
  simp [CreateMigrationsTable, hl]

/-- C5: after one successful `MigrateUp`, every catalog version reads as
applied, a further call succeeds changing nothing (so there are no duplicate
ledger rows and no schema change), no migration's `Up` body is ever invoked
again (the instrumented attempt list is empty), and any number of further
calls succeeds leaving the state of the first call. -/
theorem migrateUp_idempotent (db db1 : DB)
    (h : Runner.MigrateUp db = (none, db1)) :
    (∀ m ∈ GetMigrations, IsMigrationApplied db1 m.ID = .ok true) ∧
    Runner.MigrateUp db1 = (none, db1) ∧
    (Runner.MigrateUpT db1).attempted = [] ∧
    (∀ n, Runner.migrateUpIter n db1 = (none, db1)) := by
  have hsplit : ∃ db0, CreateMigrationsTable db = .ok db0 ∧
      Runner.migrateUpFrom GetMigrations db0 = (none, db1) := by
    cases hc : CreateMigrationsTable db with
    | error e => simp [Runner.MigrateUp, hc] at h
    | ok db0 => exact ⟨db0, rfl, by simpa [Runner.MigrateUp, hc] using h⟩
  obtain ⟨db0, hc, hrun⟩ := hsplit
  have hall := (migrateUpFrom_applies_all GetMigrations upKeeps_catalog db0 db1 hrun).2
  have hcreate1 : CreateMigrationsTable db1 = .ok db1 :=
    applied_implies_table db1 mig001.ID true (hall mig001 (by simp [GetMigrations]))
  have hskipT : Runner.migrateUpFromT GetMigrations db1 = ⟨none, db1, [], []⟩ :=
    migrateUpFromT_skips GetMigrations db1 hall
  have hskip : Runner.migrateUpFrom GetMigrations db1 = (none, db1) := by
    rw [migrateUpFromT_proj, hskipT]
  have hup1 : Runner.MigrateUp db1 = (none, db1) := by
    simp [Runner.MigrateUp, hcreate1, hskip]
  have hiter : ∀ n, Runner.migrateUpIter n db1 = (none, db1) := by
    intro n
    induction n with
    | zero => rfl
    | succ k ih => simp [Runner.migrateUpIter, hup1, ih]
  refine ⟨hall, hup1, ?_, hiter⟩
  simp [Runner.MigrateUpT, hcreate1, hskipT]

/-- Witness for C5: the concrete fresh run, then a second call that changes
nothing, attempts nothing, and five further calls that stay put. -/
theorem migrateUp_idempotent_witness :
    Runner.MigrateUp freshDB = (none, dbAll) ∧
    Runner.MigrateUp dbAll = (none, dbAll) ∧
    (Runner.MigrateUpT dbAll).attempted = [] ∧
    Runner.migrateUpIter 5 dbAll = (none, dbAll) := by
  have h := migrateUp_idempotent freshDB dbAll rfl
  exact ⟨rfl, h.2.1, h.2.2.1, h.2.2.2 5⟩

/-- Deleting a version's rows leaves no row with that key. -/
theorem countKey_filter_self (rows : List LedgerRow) (v : String) :
    countKey (rows.filter (fun r => !(r.key = v))) v = 0 := by
  induction rows with
  | nil => rfl
  | cons r rs ih =>
    by_cases h : r.key = v
    · simp [List.filter_cons, h, ih]
    · simp [List.filter_cons, h, countKey, ih]

/-- Deleting one version's rows does not change any other version's count. -/
theorem countKey_filter_other (rows : List LedgerRow) (v w : String) (hne : w ≠ v) :
    countKey (rows.filter (fun r => !(r.key = v))) w = countKey rows w := by
  induction rows with
  | nil => rfl
  | cons r rs ih =>
    by_cases h : r.key = v
    · have hrw : ¬(r.key = w) := by rw [h]; exact fun hh => hne hh.symm
      simp [List.filter_cons, h, countKey, hrw, ih]
      exact fun hh => hne hh.symm
    · simp [List.filter_cons, h, countKey, ih]

/-- On a table with a recognisable key column, `MarkMigrationUnapplied`
succeeds and removes exactly the rows keyed by the version. -/
theorem unmark_ok_spec (db : DB) (t : LedgerTable) (v : String)
    (hl : db.ledger = some t)
    (hs : t.shape.hasVersion = true ∨ t.shape.hasId = true) :
    MarkMigrationUnapplied db v =
      .ok { db with ledger := some ⟨t.shape, t.rows.filter (fun r => !(r.key = v))⟩ } := by
  cases hv : t.shape.hasVersion with
  | true => simp [MarkMigrationUnapplied, deleteByVersion, hl, hv]
  | false =>
    have hid : t.shape.hasId = true := by
      rcases hs with h | h
      · rw [hv] at h; cases h
      · exact h
    simp [MarkMigrationUnapplied, deleteByVersion, deleteById, hl, hv, hid]

/-- C6: `MigrateDown` reverts at most the one applied migration of highest
catalog position: with all of 001, 002, 003 applied, a single call succeeds
and leaves 001 and 002 applied and 003 pending; with nothing applied it is a
no-op returning success and changing no state; and with an empty catalog it
is likewise a successful no-op. -/
theorem migrateDown_revert_one (db : DB) :
    (IsMigrationApplied db mid1 = .ok true → IsMigrationApplied db mid2 = .ok true →
      IsMigrationApplied db mid3 = .ok true →
      ∃ db', Runner.MigrateDown db = (none, db') ∧
        IsMigrationApplied db' mid1 = .ok true ∧
        IsMigrationApplied db' mid2 = .ok true ∧
        IsMigrationApplied db' mid3 = .ok false) ∧
    (IsMigrationApplied db mid1 = .ok false → IsMigrationApplied db mid2 = .ok false →
      IsMigrationApplied db mid3 = .ok false →
      Runner.MigrateDown db = (none, db)) ∧
    (∀ d : DB, Runner.MigrateDownWith [] d = (none, d)) := by
  have hne : GetMigrations.isEmpty = false := rfl
  have hrev : GetMigrations.reverse = [mig003, mig002, mig001] := rfl
  refine ⟨?_, ?_, fun d => rfl⟩
  · intro h1 h2 h3
    obtain ⟨t, hl, hs, _⟩ := isApplied_ok_inv db mid3 true h3
    obtain ⟨t1, hl1, _, hb1⟩ := isApplied_ok_inv db mid1 true h1
    obtain ⟨t2, hl2, _, hb2⟩ := isApplied_ok_inv db mid2 true h2
    rw [hl] at hl1 hl2
    cases hl1
    cases hl2
    have hfind : Runner.findLastAppliedRev GetMigrations.reverse db = .ok (some mig003) := by
      rw [hrev]
      simp [Runner.findLastAppliedRev, mig003, h3]
    have hunmark := unmark_ok_spec db t mid3 hl hs
    refine ⟨{ db with ledger := some ⟨t.shape, t.rows.filter (fun r => !(r.key = mid3))⟩ },
      ?_, ?_, ?_, ?_⟩
    · simp [Runner.MigrateDown, Runner.MigrateDownWith, hne, hfind, mig003, down003, hunmark]
    · rw [isApplied_char _ ⟨t.shape, t.rows.filter (fun r => !(r.key = mid3))⟩ mid1 rfl hs]
      have hpos : countKey t.rows mid1 > 0 := of_decide_eq_true hb1.symm
      rw [countKey_filter_other t.rows mid3 mid1 (by decide)]
      simp [hpos]
    · rw [isApplied_char _ ⟨t.shape, t.rows.filter (fun r => !(r.key = mid3))⟩ mid2 rfl hs]
      have hpos : countKey t.rows mid2 > 0 := of_decide_eq_true hb2.symm
      rw [countKey_filter_other t.rows mid3 mid2 (by decide)]
      simp [hpos]
    · rw [isApplied_char _ ⟨t.shape, t.rows.filter (fun r => !(r.key = mid3))⟩ mid3 rfl hs]
      rw [countKey_filter_self t.rows mid3]
      simp
  · intro h1 h2 h3
    have hfind : Runner.findLastAppliedRev GetMigrations.reverse db = .ok none := by
      rw [hrev]
      simp [Runner.findLastAppliedRev, mig001, mig002, mig003, h1, h2, h3]
    simp [Runner.MigrateDown, Runner.MigrateDownWith, hne, hfind]

/-- Witness for C6: the one-revert branch on a database with all three
applied, and the no-op branch on a database with none applied. -/
theorem migrateDown_revert_one_witness :
    (IsMigrationApplied dbAll mid1 = .ok true ∧
      IsMigrationApplied dbAll mid2 = .ok true ∧
      IsMigrationApplied dbAll mid3 = .ok true ∧
      (∃ db', Runner.MigrateDown dbAll = (none, db') ∧
        IsMigrationApplied db' mid1 = .ok true ∧
        IsMigrationApplied db' mid2 = .ok true ∧
        IsMigrationApplied db' mid3 = .ok false)) ∧
    (IsMigrationApplied db0Canon mid1 = .ok false ∧
      Runner.MigrateDown db0Canon = (none, db0Canon)) :=
  ⟨⟨rfl, rfl, rfl, (migrateDown_revert_one dbAll).1 rfl rfl rfl⟩,
    ⟨rfl, (migrateDown_revert_one db0Canon).2.1 rfl rfl rfl⟩⟩

/-- C10: when every catalog migration is applied, `MigrateDown` picks 003,
whose `Down` is a success-returning no-op on the database, yet
`MarkMigrationUnapplied` still deletes its ledger rows in the same
transaction: the call succeeds, the resulting state differs from `db` only
in those deleted ledger rows, 003 thereafter reads as pending, and the next
`MigrateUp` invokes exactly 003's `Up` again (the instrumented attempt list
of the follow-up call is `[mid3]`). -/
theorem migrateDown_003_noop_and_rerun (db : DB)
    (h1 : IsMigrationApplied db mid1 = .ok true)
    (h2 : IsMigrationApplied db mid2 = .ok true)
    (h3 : IsMigrationApplied db mid3 = .ok true) :
    ∃ t, db.ledger = some t ∧
      mig003.Down db = .ok db ∧
      Runner.MigrateDown db =
        (none, { db with ledger := some ⟨t.shape, t.rows.filter (fun r => !(r.key = mid3))⟩ }) ∧
      IsMigrationApplied
        { db with ledger := some ⟨t.shape, t.rows.filter (fun r => !(r.key = mid3))⟩ }
        mid3 = .ok false ∧
      (Runner.MigrateUpT
        { db with ledger := some ⟨t.shape, t.rows.filter (fun r => !(r.key = mid3))⟩ }).attempted
        = [mid3] := by
  have hne : GetMigrations.isEmpty = false := rfl
  have hrev : GetMigrations.reverse = [mig003, mig002, mig001] := rfl
  obtain ⟨t, hl, hs, _⟩ := isApplied_ok_inv db mid3 true h3
  obtain ⟨t1, hl1, _, hb1⟩ := isApplied_ok_inv db mid1 true h1
  obtain ⟨t2, hl2, _, hb2⟩ := isApplied_ok_inv db mid2 true h2
  rw [hl] at hl1 hl2
  cases hl1
  cases hl2
  have hfind : Runner.findLastAppliedRev GetMigrations.reverse db = .ok (some mig003) := by
    rw [hrev]
    simp [Runner.findLastAppliedRev, mig003, h3]
  have hunmark := unmark_ok_spec db t mid3 hl hs
  refine ⟨t, hl, rfl, ?_, ?_, ?_⟩
  · simp [Runner.MigrateDown, Runner.MigrateDownWith, hne, hfind, mig003, down003, hunmark]
  · rw [isApplied_char _ ⟨t.shape, t.rows.filter (fun r => !(r.key = mid3))⟩ mid3 rfl hs]
    rw [countKey_filter_self t.rows mid3]
    simp
  · have happ1 : IsMigrationApplied
        { db with ledger := some ⟨t.shape, t.rows.filter (fun r => !(r.key = mid3))⟩ }
        mid1 = .ok true := by
      rw [isApplied_char _ ⟨t.shape, t.rows.filter (fun r => !(r.key = mid3))⟩ mid1 rfl hs]
      have hpos : countKey t.rows mid1 > 0 := of_decide_eq_true hb1.symm
      rw [countKey_filter_other t.rows mid3 mid1 (by decide)]
      simp [hpos]
    have happ2 : IsMigrationApplied
        { db with ledger := some ⟨t.shape, t.rows.filter (fun r => !(r.key = mid3))⟩ }
        mid2 = .ok true := by
      rw [isApplied_char _ ⟨t.shape, t.rows.filter (fun r => !(r.key = mid3))⟩ mid2 rfl hs]
      have hpos : countKey t.rows mid2 > 0 := of_decide_eq_true hb2.symm
      rw [countKey_filter_other t.rows mid3 mid2 (by decide)]
      simp [hpos]
    have happ3 : IsMigrationApplied
        { db with ledger := some ⟨t.shape, t.rows.filter (fun r => !(r.key = mid3))⟩ }
        mid3 = .ok false := by
      rw [isApplied_char _ ⟨t.shape, t.rows.filter (fun r => !(r.key = mid3))⟩ mid3 rfl hs]
      rw [countKey_filter_self t.rows mid3]
      simp
    have hup3 : up003
        { db with ledger := some ⟨t.shape, t.rows.filter (fun r => !(r.key = mid3))⟩ } =
        .ok { db with ledger := some ⟨t.shape, t.rows.filter (fun r => !(r.key = mid3))⟩ } := by
      simp [up003, showTablesScan, CreateMigrationsTable]
    cases hmark : MarkMigrationApplied
        { db with ledger := some ⟨t.shape, t.rows.filter (fun r => !(r.key = mid3))⟩ }
        mid3 with
    | error e =>
      simp [Runner.MigrateUpT, CreateMigrationsTable, Runner.migrateUpFromT, GetMigrations,
        mig001, mig002, mig003, happ1, happ2, happ3, hup3, hmark]
    | ok tx2 =>
      simp [Runner.MigrateUpT, CreateMigrationsTable, Runner.migrateUpFromT, GetMigrations,
        mig001, mig002, mig003, happ1, happ2, happ3, hup3, hmark]

/-- Witness for C10 on the concrete fully-applied database. -/
theorem migrateDown_003_noop_and_rerun_witness :
    IsMigrationApplied dbAll mid1 = .ok true ∧
    IsMigrationApplied dbAll mid2 = .ok true ∧
    IsMigrationApplied dbAll mid3 = .ok true ∧
    (∃ t, dbAll.ledger = some t ∧
      mig003.Down dbAll = .ok dbAll ∧
      Runner.MigrateDown dbAll =
        (none, { dbAll with
          ledger := some ⟨t.shape, t.rows.filter (fun r => !(r.key = mid3))⟩ }) ∧
      IsMigrationApplied
        { dbAll with ledger := some ⟨t.shape, t.rows.filter (fun r => !(r.key = mid3))⟩ }
        mid3 = .ok false ∧
      (Runner.MigrateUpT
        { dbAll with
          ledger := some ⟨t.shape, t.rows.filter (fun r => !(r.key = mid3))⟩ }).attempted
        = [mid3]) :=
  ⟨rfl, rfl, rfl, migrateDown_003_noop_and_rerun dbAll rfl rfl rfl⟩

/-- A version has a positive row count exactly when it is among the row
keys. -/
theorem countKey_pos_iff (rows : List LedgerRow) (v : String) :
    countKey rows v > 0 ↔ v ∈ rows.map (fun r => r.key) := by
  induction rows with
  | nil => simp [countKey]
  | cons r rs ih =>
    by_cases h : r.key = v
    · simp [countKey, h]
    · have h' : ¬(v = r.key) := fun hh => h hh.symm
      simp [countKey, h, h', ih]

/-- Rows with an empty key image form the empty list. -/
theorem map_key_eq_nil {rows : List LedgerRow}
    (h : rows.map (fun r => r.key) = []) : rows = [] := by
  cases rows with
  | nil => rfl
  | cons r rs => simp at h

/-- Rows with a singleton key image are one row with that key. -/
theorem map_key_eq_one {rows : List LedgerRow} {a : String}
    (h : rows.map (fun r => r.key) = [a]) :
    ∃ r1, rows = [r1] ∧ r1.key = a := by
  cases rows with
  | nil => simp at h
  | cons r rs =>
    simp only [List.map_cons, List.cons.injEq] at h
    have h2 : rs = [] := map_key_eq_nil h.2
    exact ⟨r, by rw [h2], h.1⟩

/-- Rows with a two-element key image are two rows with those keys. -/
theorem map_key_eq_two {rows : List LedgerRow} {a b : String}
    (h : rows.map (fun r => r.key) = [a, b]) :
    ∃ r1 r2, rows = [r1, r2] ∧ r1.key = a ∧ r2.key = b := by
  cases rows with
  | nil => simp at h
  | cons r rs =>
    simp only [List.map_cons, List.cons.injEq] at h
    obtain ⟨r2, hrs, hk2⟩ := map_key_eq_one h.2
    exact ⟨r, r2, by rw [hrs], h.1, hk2⟩

/-- Rows with a three-element key image are three rows with those keys. -/
theorem map_key_eq_three {rows : List LedgerRow} {a b d : String}
    (h : rows.map (fun r => r.key) = [a, b, d]) :
    ∃ r1 r2 r3, rows = [r1, r2, r3] ∧ r1.key = a ∧ r2.key = b ∧ r3.key = d := by
  cases rows with
  | nil => simp at h
  | cons r rs =>
    simp only [List.map_cons, List.cons.injEq] at h
    obtain ⟨r2, r3, hrs, hk2, hk3⟩ := map_key_eq_two h.2
    exact ⟨r, r2, r3, by rw [hrs], h.1, hk2, hk3⟩

/-- Up-loop trace from a canonical empty ledger: all three migrations are
attempted and committed in order. -/
theorem runUpT_k0 (c : Nat) :
    Runner.migrateUpFromT GetMigrations ⟨some ⟨.canonical, []⟩, none, false, false, c⟩ =
      ⟨none, ⟨some ⟨.canonical, [⟨mid1, mid1, c⟩, ⟨mid2, mid2, c + 1⟩, ⟨mid3, mid3, c + 2⟩]⟩,
        none, true, true, c + 3⟩, [mid1, mid2, mid3], [mid1, mid2, mid3]⟩ := rfl

/-- Up-loop trace with only 001 recorded: 002 and 003 run. -/
theorem runUpT_k1 (r1 : LedgerRow) (c : Nat) (hk1 : r1.key = mid1) :
    Runner.migrateUpFromT GetMigrations ⟨some ⟨.canonical, [r1]⟩, none, true, false, c⟩ =
      ⟨none, ⟨some ⟨.canonical, [r1, ⟨mid2, mid2, c⟩, ⟨mid3, mid3, c + 1⟩]⟩,
        none, true, true, c + 2⟩, [mid2, mid3], [mid2, mid3]⟩ := by
  simp [Runner.migrateUpFromT, GetMigrations, mig001, mig002, mig003,
    IsMigrationApplied, queryCountVersion, queryCountId,
    LedgerShape.hasVersion, LedgerShape.hasId, LedgerShape.hasName, countKey,
    up001, up002, up003, showTablesScan, CreateMigrationsTable,
    MarkMigrationApplied, insertCanonical, insertLegacy, hk1, mid1, mid2, mid3]

/-- Up-loop trace with 001 and 002 recorded: only 003 runs. -/
theorem runUpT_k2 (r1 r2 : LedgerRow) (c : Nat)
    (hk1 : r1.key = mid1) (hk2 : r2.key = mid2) :
    Runner.migrateUpFromT GetMigrations ⟨some ⟨.canonical, [r1, r2]⟩, none, true, true, c⟩ =
      ⟨none, ⟨some ⟨.canonical, [r1, r2, ⟨mid3, mid3, c⟩]⟩,
        none, true, true, c + 1⟩, [mid3], [mid3]⟩ := by
  simp [Runner.migrateUpFromT, GetMigrations, mig001, mig002, mig003,
    IsMigrationApplied, queryCountVersion, queryCountId,
    LedgerShape.hasVersion, LedgerShape.hasId, LedgerShape.hasName, countKey,
    up001, up002, up003, showTablesScan, CreateMigrationsTable,
    MarkMigrationApplied, insertCanonical, insertLegacy, hk1, hk2, mid1, mid2, mid3]

/-- Up-loop trace with everything recorded: all three are skipped. -/
theorem runUpT_k3 (r1 r2 r3 : LedgerRow) (c : Nat)
    (hk1 : r1.key = mid1) (hk2 : r2.key = mid2) (hk3 : r3.key = mid3) :
    Runner.migrateUpFromT GetMigrations
        ⟨some ⟨.canonical, [r1, r2, r3]⟩, none, true, true, c⟩ =
      ⟨none, ⟨some ⟨.canonical, [r1, r2, r3]⟩, none, true, true, c⟩, [], []⟩ := by
  simp [Runner.migrateUpFromT, GetMigrations, mig001, mig002, mig003,
    IsMigrationApplied, queryCountVersion, queryCountId,
    LedgerShape.hasVersion, LedgerShape.hasId, LedgerShape.hasName, countKey,
    hk1, hk2, hk3, mid1, mid2, mid3]

/-- `MigrateDown` on a bare fresh database: the first ledger read fails, the
call aborts with that wrapped error and no revert commits. -/
theorem runDownT_fresh (c : Nat) :
    Runner.MigrateDownT ⟨none, none, false, false, c⟩ =
      (some ("failed to check migration status for " ++ mid3 ++
        ": " ++ "Error 1146: table schema_migrations does not exist"),
        ⟨none, none, false, false, c⟩, none) := rfl

/-- `MigrateDown` with an empty canonical ledger: nothing applied, no-op. -/
theorem runDownT_k0 (c : Nat) :
    Runner.MigrateDownT ⟨some ⟨.canonical, []⟩, none, false, false, c⟩ =
      (none, ⟨some ⟨.canonical, []⟩, none, false, false, c⟩, none) := rfl

/-- `MigrateDown` with only 001 recorded: 001 is reverted. -/
theorem runDownT_k1 (r1 : LedgerRow) (c : Nat) (hk1 : r1.key = mid1) :
    Runner.MigrateDownT ⟨some ⟨.canonical, [r1]⟩, none, true, false, c⟩ =
      (none, ⟨some ⟨.canonical, []⟩, none, false, false, c⟩, some mid1) := by
  have hrev : GetMigrations.reverse = [mig003, mig002, mig001] := rfl
  simp [Runner.MigrateDownT, Runner.findLastAppliedRev, hrev, GetMigrations,
    mig001, mig002, mig003, IsMigrationApplied, queryCountVersion, queryCountId,
    LedgerShape.hasVersion, LedgerShape.hasId, countKey, down001, down002, down003,
    up001, up002, up003, MarkMigrationUnapplied, deleteByVersion, deleteById,
    List.filter_cons, hk1, mid1, mid2, mid3]

/-- `MigrateDown` with 001 and 002 recorded: 002 is reverted. -/
theorem runDownT_k2 (r1 r2 : LedgerRow) (c : Nat)
    (hk1 : r1.key = mid1) (hk2 : r2.key = mid2) :
    Runner.MigrateDownT ⟨some ⟨.canonical, [r1, r2]⟩, none, true, true, c⟩ =
      (none, ⟨some ⟨.canonical, [r1]⟩, none, true, false, c⟩, some mid2) := by
  have hrev : GetMigrations.reverse = [mig003, mig002, mig001] := rfl
  simp [Runner.MigrateDownT, Runner.findLastAppliedRev, hrev, GetMigrations,
    mig001, mig002, mig003, IsMigrationApplied, queryCountVersion, queryCountId,
    LedgerShape.hasVersion, LedgerShape.hasId, countKey, down001, down002, down003,
    up001, up002, up003, MarkMigrationUnapplied, deleteByVersion, deleteById,
    List.filter_cons, hk1, hk2, mid1, mid2, mid3]

/-- `MigrateDown` with all three recorded: 003 is reverted, only its row
goes away. -/
theorem runDownT_k3 (r1 r2 r3 : LedgerRow) (c : Nat)
    (hk1 : r1.key = mid1) (hk2 : r2.key = mid2) (hk3 : r3.key = mid3) :
    Runner.MigrateDownT ⟨some ⟨.canonical, [r1, r2, r3]⟩, none, true, true, c⟩ =
      (none, ⟨some ⟨.canonical, [r1, r2]⟩, none, true, true, c⟩, some mid3) := by
  have hrev : GetMigrations.reverse = [mig003, mig002, mig001] := rfl
  simp [Runner.MigrateDownT, Runner.findLastAppliedRev, hrev, GetMigrations,
    mig001, mig002, mig003, IsMigrationApplied, queryCountVersion, queryCountId,
    LedgerShape.hasVersion, LedgerShape.hasId, countKey, down001, down002, down003,
    up001, up002, up003, MarkMigrationUnapplied, deleteByVersion, deleteById,
    List.filter_cons, hk1, hk2, hk3, mid1, mid2, mid3]

/-- Every reachable state satisfies the strong invariant. -/
theorem reach_strongInv (db : DB) (A : List String) (h : Reach db A) :
    StrongInv db A := by
  induction h with
  | fresh => exact ⟨rfl, .inl ⟨rfl, rfl, rfl, rfl⟩⟩
  | @up db A hr ih =>
    obtain ⟨led, lold, us, co, c⟩ := db
    obtain ⟨hold, hcase⟩ := ih
    replace hold : lold = none := hold
    subst hold
    rw [MigrateUpT_proj]
    rcases hcase with ⟨hl, hu, hc, hA⟩ | ⟨k, rows, hk, hl, hmap, hA, hu, hc⟩
    · replace hl : led = none := hl
      replace hu : us = false := hu
      replace hc : co = false := hc
      subst hl; subst hu; subst hc; subst hA
      have hT : Runner.MigrateUpT ⟨none, none, false, false, c⟩ =
          Runner.migrateUpFromT GetMigrations
            ⟨some ⟨.canonical, []⟩, none, false, false, c⟩ := rfl
      rw [hT, runUpT_k0 c]
      exact ⟨rfl, .inr ⟨3, _, by omega, rfl, rfl, rfl, rfl, rfl⟩⟩
    · replace hl : led = some ⟨.canonical, rows⟩ := hl
      subst hl; subst hA
      interval_cases k
      · replace hu : us = false := by simpa using hu
        replace hc : co = false := by simpa using hc
        subst hu; subst hc
        simp only [idsTake] at hmap
        have hrows := map_key_eq_nil hmap
        subst hrows
        have hT : Runner.MigrateUpT ⟨some ⟨.canonical, []⟩, none, false, false, c⟩ =
            Runner.migrateUpFromT GetMigrations
              ⟨some ⟨.canonical, []⟩, none, false, false, c⟩ := rfl
        rw [hT, runUpT_k0 c]
        exact ⟨rfl, .inr ⟨3, _, by omega, rfl, rfl, rfl, rfl, rfl⟩⟩
      · replace hu : us = true := by simpa using hu
        replace hc : co = false := by simpa using hc
        subst hu; subst hc
        simp only [idsTake] at hmap
        obtain ⟨r1, hrows, hk1⟩ := map_key_eq_one hmap
        subst hrows
        have hT : Runner.MigrateUpT ⟨some ⟨.canonical, [r1]⟩, none, true, false, c⟩ =
            Runner.migrateUpFromT GetMigrations
              ⟨some ⟨.canonical, [r1]⟩, none, true, false, c⟩ := rfl
        rw [hT, runUpT_k1 r1 c hk1]
        exact ⟨rfl, .inr ⟨3, _, by omega, rfl, by simp [idsTake, hk1], rfl, rfl, rfl⟩⟩
      · replace hu : us = true := by simpa using hu
        replace hc : co = true := by simpa using hc
        subst hu; subst hc
        simp only [idsTake] at hmap
        obtain ⟨r1, r2, hrows, hk1, hk2⟩ := map_key_eq_two hmap
        subst hrows
        have hT : Runner.MigrateUpT ⟨some ⟨.canonical, [r1, r2]⟩, none, true, true, c⟩ =
            Runner.migrateUpFromT GetMigrations
              ⟨some ⟨.canonical, [r1, r2]⟩, none, true, true, c⟩ := rfl
        rw [hT, runUpT_k2 r1 r2 c hk1 hk2]
        exact ⟨rfl, .inr ⟨3, _, by omega, rfl, by simp [idsTake, hk1, hk2], rfl, rfl, rfl⟩⟩
      · replace hu : us = true := by simpa using hu
        replace hc : co = true := by simpa using hc
        subst hu; subst hc
        simp only [idsTake] at hmap
        obtain ⟨r1, r2, r3, hrows, hk1, hk2, hk3⟩ := map_key_eq_three hmap
        subst hrows
        have hT : Runner.MigrateUpT ⟨some ⟨.canonical, [r1, r2, r3]⟩, none, true, true, c⟩ =
            Runner.migrateUpFromT GetMigrations
              ⟨some ⟨.canonical, [r1, r2, r3]⟩, none, true, true, c⟩ := rfl
        rw [hT, runUpT_k3 r1 r2 r3 c hk1 hk2 hk3]
        refine ⟨rfl, .inr ⟨3, _, by omega, rfl, ?_, ?_, rfl, rfl⟩⟩
        · simp [idsTake, hk1, hk2, hk3]
        · simp [idsTake]
  | @down db A hr ih =>
    obtain ⟨led, lold, us, co, c⟩ := db
    obtain ⟨hold, hcase⟩ := ih
    replace hold : lold = none := hold
    subst hold
    rw [MigrateDownT_proj]
    rcases hcase with ⟨hl, hu, hc, hA⟩ | ⟨k, rows, hk, hl, hmap, hA, hu, hc⟩
    · replace hl : led = none := hl
      replace hu : us = false := hu
      replace hc : co = false := hc
      subst hl; subst hu; subst hc; subst hA
      rw [runDownT_fresh c]
      exact ⟨rfl, .inl ⟨rfl, rfl, rfl, rfl⟩⟩
    · replace hl : led = some ⟨.canonical, rows⟩ := hl
      subst hl; subst hA
      interval_cases k
      · replace hu : us = false := by simpa using hu
        replace hc : co = false := by simpa using hc
        subst hu; subst hc
        simp only [idsTake] at hmap
        have hrows := map_key_eq_nil hmap
        subst hrows
        rw [runDownT_k0 c]
        exact ⟨rfl, .inr ⟨0, _, by omega, rfl, rfl, rfl, rfl, rfl⟩⟩
      · replace hu : us = true := by simpa using hu
        replace hc : co = false := by simpa using hc
        subst hu; subst hc
        simp only [idsTake] at hmap
        obtain ⟨r1, hrows, hk1⟩ := map_key_eq_one hmap
        subst hrows
        rw [runDownT_k1 r1 c hk1]
        refine ⟨rfl, .inr ⟨0, _, by omega, rfl, rfl, ?_, rfl, rfl⟩⟩
        simp [idsTake, mid1]
      · replace hu : us = true := by simpa using hu
        replace hc : co = true := by simpa using hc
        subst hu; subst hc
        simp only [idsTake] at hmap
        obtain ⟨r1, r2, hrows, hk1, hk2⟩ := map_key_eq_two hmap
        subst hrows
        rw [runDownT_k2 r1 r2 c hk1 hk2]
        refine ⟨rfl, .inr ⟨1, _, by omega, rfl, ?_, ?_, rfl, rfl⟩⟩
        · simp [idsTake, hk1, mid1, mid2]
        · simp [idsTake, mid1, mid2]
      · replace hu : us = true := by simpa using hu
        replace hc : co = true := by simpa using hc
        subst hu; subst hc
        simp only [idsTake] at hmap
        obtain ⟨r1, r2, r3, hrows, hk1, hk2, hk3⟩ := map_key_eq_three hmap
        subst hrows
        rw [runDownT_k3 r1 r2 r3 c hk1 hk2 hk3]
        refine ⟨rfl, .inr ⟨2, _, by omega, rfl, ?_, ?_, rfl, rfl⟩⟩
        · simp [idsTake, hk1, hk2, mid1, mid2, mid3]
        · simp [idsTake, mid1, mid2, mid3]

/-- C9: in every database state reachable from a fresh database through the
Runner's operations, the ledger holds an entry for a version exactly when
that version has been successfully applied (its `Up` and
`MarkMigrationApplied` committed together) and not since reverted (no later
committed `Down` plus `MarkMigrationUnapplied` for it) — the version list
carried by `Reach` records exactly that history. -/
theorem ledger_iff_history (db : DB) (A : List String) (h : Reach db A)
    (v : String) : ledgerHasEntry db v = true ↔ v ∈ A := by
  obtain ⟨hold, hcase⟩ := reach_strongInv db A h
  rcases hcase with ⟨hl, _, _, hA⟩ | ⟨k, rows, _, hl, hmap, _, _, _⟩
  · simp [ledgerHasEntry, hl, hA]
  · simp only [ledgerHasEntry, hl, decide_eq_true_eq]
    rw [← hmap]
    exact countKey_pos_iff rows v

/-- Witness for C9: after one `MigrateUp` from fresh, version 001 has a
ledger entry because it is in the applied history. -/
theorem ledger_iff_history_witness :
    ledgerHasEntry (Runner.MigrateUp freshDB).2 mid1 = true :=
  (ledger_iff_history _ _ (Reach.up Reach.fresh) mid1).mpr (by decide)

end MigrationEngine
